import Mathlib

set_option maxRecDepth 100000

/-
Verification development for the NZB segment-acquisition and yEnc-decoding
engine of the media-downloader repository.

The definitions below are shallow embeddings of the Python source:
 - src/services/yenc_decoder.py        (standalone manual yEnc decoder)
 - src/services/nzb_service_enhanced.py (segment download, reassembly,
                                         fallback manual yEnc decoder,
                                         connection pooling)
 - src/services/error_handling.py      (error classification and retry)
 - src/services/ssl_handler.py         (SSL connection manager release path)

Python byte strings are modeled as `List Nat` (byte values), text as
`List Char` or `String`, Python `float` arithmetic on delays and success
ratios as exact rationals `ℚ` (all multiplications involved are by powers
of two and the quantities compared are far from the representation
boundary, so IEEE doubles and exact rationals agree on every comparison
performed at the inputs the theorems are instantiated at), and mutation of
module-level objects as explicit state passing.
-/

/-! Per-byte yEnc decoding, from src/services/yenc_decoder.py. -/

/-- Embeds `_decode_char` (yenc_decoder.py lines 5-8):
`c = c - 42 if c >= 42 else 256 - (42 - c)` followed by `return c & 0xFF`. -/
def decode_char (c : Nat) : Nat :=
  (if 42 ≤ c then c - 42 else 256 - (42 - c)) &&& 0xFF

/-- Embeds the per-byte decode loop of `decode_yenc` (yenc_decoder.py lines
104-118), applied to the character codes of one part's data: on `'='` (61)
the next character is consumed and decoded with `_decode_char`; `'\r'` (13)
and `'\n'` (10) are skipped; every other character is decoded with
`_decode_char`. -/
def decode_body : List Nat → List Nat
  | [] => []
  | c :: rest =>
    if c = 61 then
      match rest with
      | [] => []
      | d :: rest2 => decode_char d :: decode_body rest2
    else if c ≠ 13 ∧ c ≠ 10 then decode_char c :: decode_body rest
    else decode_body rest

/-- Embeds the per-character rule of `_manual_yenc_decode`
(nzb_service_enhanced.py lines 347-352): `(ord(char) - 42) % 256` with
Python `%` semantics (nonnegative result for a positive modulus), matching
Lean's `Int.emod`. -/
def manual_decode_char (c : Nat) : Int := ((c : Int) - 42) % 256

/-- Embeds the inner loop `for char in line:` of `_manual_yenc_decode`
(nzb_service_enhanced.py lines 348-352): `'='` characters are skipped via
`continue`; every other character is decoded with the `(c - 42) % 256`
rule. -/
def manual_decode_line (line : List Nat) : List Int :=
  line.filterMap (fun c => if c = 61 then none else some (manual_decode_char c))

/-! Error data model, from src/services/error_handling.py. -/

/-- Embeds `ErrorCategory` (error_handling.py lines 24-32). -/
inductive ErrorCategory
  | NNTP_SERVER
  | NETWORK
  | SSL_CONNECTION
  | YENC_DECODING
  | FILE_SYSTEM
  | NZB_FORMAT
  | AUTHENTICATION
  | UNKNOWN
deriving DecidableEq, Repr

/-- Embeds `ErrorSeverity` (error_handling.py lines 18-22). -/
inductive ErrorSeverity
  | LOW
  | MEDIUM
  | HIGH
  | CRITICAL
deriving DecidableEq, Repr

/-- A Python `dict` of string keys and values, in insertion order. -/
abbrev Context := List (String × String)

/-- Embeds the `ErrorInfo` dataclass (error_handling.py lines 34-45), with
its `context` dict made explicit. -/
structure ErrorInfo where
  category : ErrorCategory
  severity : ErrorSeverity
  description : String
  retriable : Bool
  action : String
  context : Context
deriving DecidableEq, Repr

/-! Segment dictionary and file reassembly, from
src/services/nzb_service_enhanced.py `download_file` (lines 435-490).
The `segment_data` Python dict is modeled as an insertion-ordered
association list with the exact `d[k] = v` update rule. -/

abbrev SegBytes := List Nat
abbrev SegDict := List (Nat × SegBytes)

/-- Python dict assignment `segment_data[segment_number] = data`: an
existing key is overwritten in place, a new key is appended. -/
def dict_insert (m : SegDict) (k : Nat) (v : SegBytes) : SegDict :=
  if m.any (fun p => p.1 == k) then
    m.map (fun p => if p.1 = k then (k, v) else p)
  else m ++ [(k, v)]

/-- Python dict lookup `segment_data[i]` / membership `i in segment_data`. -/
def dict_lookup (m : SegDict) (k : Nat) : Option SegBytes :=
  (m.find? (fun p => p.1 == k)).map Prod.snd

/-- Python `len(segment_data)`. -/
def dict_len (m : SegDict) : Nat := m.length

/-- The keys of the dict, in insertion order. -/
def dict_keys (m : SegDict) : List Nat := m.map Prod.fst

/-- Embeds the result-collection loop of `download_file` (lines 448-457):
each completed task either stores `segment_data[segment_number] = data` or
is recorded as failed. `arrivals` is the sequence of successful
`(segment_number, data)` pairs in the order the loop observes them. -/
def build_segment_data (arrivals : List (Nat × SegBytes)) : SegDict :=
  arrivals.foldl (fun m p => dict_insert m p.1 p.2) []

/-- Embeds the reassembly loop of `download_file` (lines 474-480):
`for i in range(1, len(file_info.segments) + 1): if i in segment_data:
combined_data.extend(segment_data[i])`, a missing ordinal is skipped. -/
def combine_segments (m : SegDict) (n : Nat) : SegBytes :=
  ((List.range' 1 n).map (fun i => (dict_lookup m i).getD [])).flatten

/-- The successful `(segment_number, data)` pairs among the per-segment
task results, in task order (the order `download_file` awaits them). -/
def successes (results : List (Nat × Except ErrorInfo SegBytes)) :
    List (Nat × SegBytes) :=
  results.filterMap (fun p =>
    match p.2 with
    | .ok d => some (p.1, d)
    | .error _ => none)

/-- The number of failed segment tasks (`failed_segments` list length). -/
def failed_count (results : List (Nat × Except ErrorInfo SegBytes)) : Nat :=
  results.countP (fun p =>
    match p.2 with
    | .error _ => true
    | .ok _ => false)

/-- Embeds the decision core of `download_file` (nzb_service_enhanced.py
lines 459-480): `success_rate = len(segment_data) / len(file_info.segments)`;
below `0.8` the whole file fails with an NNTP_SERVER/HIGH non-retriable
error, otherwise the segments are combined in ordinal order 1..N.
`results` carries one entry per segment of the file, in manifest order. -/
def download_file (results : List (Nat × Except ErrorInfo SegBytes)) :
    Except ErrorInfo SegBytes :=
  let segment_data := build_segment_data (successes results)
  let success_rate : ℚ := (dict_len segment_data : ℚ) / (results.length : ℚ)
  if success_rate < 0.8 then
    .error ⟨.NNTP_SERVER, .HIGH,
      "Too many failed segments: " ++ toString (failed_count results) ++ "/" ++
        toString results.length,
      false, "Check server availability and article retention", []⟩
  else .ok (combine_segments segment_data results.length)

/-! Error classification, from src/services/error_handling.py
`categorize_error` (lines 157-219) and the module-level `ERROR_PATTERNS`
table (lines 48-155). -/

/-- Index of the first occurrence of `pat` as a contiguous substring of
`l`, or `none` (Python `pat in s` and leftmost regex literal matching). -/
def findSub (pat : List Char) : List Char → Option Nat
  | [] => if pat.isEmpty then some 0 else none
  | c :: t => if pat.isPrefixOf (c :: t) then some 0 else (findSub pat t).map (· + 1)

/-- Python substring test `pat in s`. -/
def containsSub (pat : String) (s : List Char) : Bool :=
  (findSub pat.toList s).isSome

/-- The keys of the `ERROR_PATTERNS` dict (error_handling.py lines 48-155). -/
inductive PatternKey
  | k430
  | k480
  | k502
  | ktimeout
  | kdns
  | kssl
  | kssl_eof
  | kssl_protocol
  | kyenc_crc
  | kyenc_headers
  | kyenc_incomplete
  | kdisk_space
  | kpermission
  | knzb_invalid
  | knzb_empty
deriving DecidableEq, Repr

/-- The static fields of each `ERROR_PATTERNS` entry as written at module
load (error_handling.py lines 48-155); every entry starts with an empty
`context` dict. -/
def error_patterns_base : PatternKey → ErrorInfo
  | .k430 => ⟨.NNTP_SERVER, .HIGH, "Article not found (430)", false,
      "Skip segment, try alternative sources", []⟩
  | .k480 => ⟨.AUTHENTICATION, .CRITICAL, "Authentication required (480)", false,
      "Check credentials and server settings", []⟩
  | .k502 => ⟨.AUTHENTICATION, .CRITICAL, "Permission denied (502)", false,
      "Check account permissions", []⟩
  | .ktimeout => ⟨.NETWORK, .MEDIUM, "Connection timeout", true,
      "Retry with exponential backoff", []⟩
  | .kdns => ⟨.NETWORK, .HIGH, "DNS resolution failed", true,
      "Check DNS settings and server hostname", []⟩
  | .kssl => ⟨.SSL_CONNECTION, .HIGH, "SSL handshake failed", true,
      "Check SSL settings and certificates, retry with fresh connection", []⟩
  | .kssl_eof => ⟨.SSL_CONNECTION, .MEDIUM, "SSL connection closed unexpectedly (EOF)", true,
      "Recreate SSL connection and retry", []⟩
  | .kssl_protocol => ⟨.SSL_CONNECTION, .HIGH, "SSL protocol error", true,
      "Try different SSL protocol version", []⟩
  | .kyenc_crc => ⟨.YENC_DECODING, .HIGH, "yEnc CRC checksum mismatch", false,
      "Data corruption, try alternative source", []⟩
  | .kyenc_headers => ⟨.YENC_DECODING, .HIGH, "Missing yEnc headers (=ybegin, =yend)", false,
      "Invalid yEnc format, check article content", []⟩
  | .kyenc_incomplete => ⟨.YENC_DECODING, .MEDIUM, "Incomplete yEnc data", true,
      "Retry download, may be temporary server issue", []⟩
  | .kdisk_space => ⟨.FILE_SYSTEM, .CRITICAL, "Insufficient disk space", false,
      "Free disk space or change download location", []⟩
  | .kpermission => ⟨.FILE_SYSTEM, .HIGH, "File system permission denied", false,
      "Check directory permissions", []⟩
  | .knzb_invalid => ⟨.NZB_FORMAT, .CRITICAL, "Invalid XML format in NZB", false,
      "NZB file is corrupted", []⟩
  | .knzb_empty => ⟨.NZB_FORMAT, .CRITICAL, "No files found in NZB", false,
      "Empty or invalid NZB file", []⟩

/-- The mutable part of the module state: the `context` dict currently held
by each `ERROR_PATTERNS` entry (they all start empty and are mutated in
place by `info.context.update(context)` at line 218). -/
structure ClassifierState where
  contexts : PatternKey → Context

/-- The module state right after import: every pattern context is empty. -/
def initial_classifier_state : ClassifierState := ⟨fun _ => []⟩

/-- Python `old.update(new)`: existing keys are overwritten in place,
new keys are appended in order. -/
def ctx_update (old new : Context) : Context :=
  old.map (fun p =>
    match new.find? (fun q => q.1 == p.1) with
    | some q => q
    | none => p) ++
  new.filter (fun q => !(old.any (fun p => p.1 == q.1)))

/-- The `if`/`elif` matching chain of `categorize_error` (error_handling.py
lines 165-215), applied to the lowercased error message `error_str` and the
exception type name `error_type`; returns the `ERROR_PATTERNS` key selected
by the first matching branch, or `none` for the default unknown branch. -/
def select_pattern (error_str : List Char) (error_type : List Char) : Option PatternKey :=
  if containsSub "ssl" error_str && containsSub "eof" error_str then some .kssl_eof
  else if containsSub "ssl" error_str &&
      (containsSub "closed" error_str || containsSub "connection" error_str) then some .kssl_eof
  else if containsSub "tls" error_str &&
      (containsSub "closed" error_str || containsSub "eof" error_str) then some .kssl_eof
  else if containsSub "_ssl.c" error_str then some .kssl_eof
  else if containsSub "ssl" error_str && containsSub "protocol" error_str then some .kssl_protocol
  else if containsSub "ssl" error_str || containsSub "certificate" error_str then some .kssl
  else if containsSub "430" error_str || containsSub "no such article" error_str then some .k430
  else if containsSub "480" error_str || containsSub "authentication" error_str then some .k480
  else if containsSub "502" error_str || containsSub "permission denied" error_str then some .k502
  else if containsSub "timeout" error_str || error_type == "timeout".toList then some .ktimeout
  else if containsSub "name resolution" error_str || containsSub "dns" error_str then some .kdns
  else if containsSub "crc" error_str then some .kyenc_crc
  else if containsSub "ybegin" error_str || containsSub "yend" error_str then some .kyenc_headers
  else if containsSub "incomplete" error_str || containsSub "truncated" error_str then some .kyenc_incomplete
  else if containsSub "no space" error_str || containsSub "disk full" error_str then some .kdisk_space
  else if containsSub "permission" error_str && containsSub "denied" error_str then some .kpermission
  else if containsSub "xml" error_str && containsSub "invalid" error_str then some .knzb_invalid
  else if containsSub "no files" error_str || containsSub "empty" error_str then some .knzb_empty
  else none

/-- Embeds `categorize_error` (error_handling.py lines 157-219) with the
module-level mutation made explicit: a matched pattern returns the shared
`ERROR_PATTERNS` object, whose `context` dict is updated in place (so the
update is visible both in the returned `ErrorInfo` and in the module
state); the default branch constructs a fresh UNKNOWN `ErrorInfo`. -/
def categorize_error (st : ClassifierState) (error_str : List Char)
    (error_type : List Char) (context : Context) : ErrorInfo × ClassifierState :=
  match select_pattern error_str error_type with
  | some k =>
    let base := error_patterns_base k
    let newCtx := ctx_update (st.contexts k) context
    (⟨base.category, base.severity, base.description, base.retriable, base.action, newCtx⟩,
     ⟨fun j => if j = k then newCtx else st.contexts j⟩)
  | none =>
    (⟨.UNKNOWN, .MEDIUM, "Unknown error: " ++ String.mk (error_str.take 100),
      true, "Generic retry with backoff", ctx_update [] context⟩, st)

/-! Retry handling, from src/services/error_handling.py
`EnhancedRetryHandler` (lines 346-455). -/

/-- The constructor arguments of `EnhancedRetryHandler` (lines 349-352). -/
structure EnhancedRetryHandler where
  max_retries : Nat
  base_delay : ℚ
  max_delay : ℚ

/-- Embeds `EnhancedRetryHandler.should_retry` (lines 354-363). -/
def should_retry (h : EnhancedRetryHandler) (error_info : ErrorInfo) (attempt : Nat) : Bool :=
  if h.max_retries ≤ attempt then false
  else if error_info.category = .SSL_CONNECTION then true
  else error_info.retriable

/-- Embeds `EnhancedRetryHandler.get_delay` (lines 365-368):
`min(base_delay * 2 ** attempt, max_delay)`. -/
def get_delay (h : EnhancedRetryHandler) (attempt : Nat) : ℚ :=
  min (h.base_delay * 2 ^ attempt) h.max_delay

/-- Observable outcome of one `retry` run: the returned value or raised
error, the number of times the wrapped operation was invoked, and the
backoff delays slept between attempts, in order. -/
structure RetryTrace (α : Type) where
  result : Except ErrorInfo α
  invocations : Nat
  delays : List ℚ
deriving Repr

/-- The loop body of `EnhancedRetryHandler.retry` (lines 377-412), with
`op n` the outcome of the `n`-th invocation of the wrapped operation
(an `NZBDownloadError`'s `error_info`; a generic exception is first run
through `categorize_error`, which yields the same shape). The fuel is the
number of loop iterations left; the final fall-through `raise last_error`
is unreachable from `retry` and re-raises the tracked last error. -/
def retry_go {α : Type} (h : EnhancedRetryHandler) (op : Nat → Except ErrorInfo α) :
    Nat → Nat → List ℚ → Option ErrorInfo → RetryTrace α
  | 0, attempt, ds, lastE =>
    ⟨.error (lastE.getD (error_patterns_base .ktimeout)), attempt, ds⟩
  | fuel + 1, attempt, ds, _ =>
    match op attempt with
    | .ok v => ⟨.ok v, attempt + 1, ds⟩
    | .error e =>
      if should_retry h e attempt then
        if attempt < h.max_retries then
          retry_go h op fuel (attempt + 1) (ds ++ [get_delay h attempt]) (some e)
        else ⟨.error e, attempt + 1, ds⟩
      else ⟨.error e, attempt + 1, ds⟩

/-- Embeds `EnhancedRetryHandler.retry` (lines 370-412):
`for attempt in range(self.max_retries + 1): ...`. -/
def retry {α : Type} (h : EnhancedRetryHandler) (op : Nat → Except ErrorInfo α) :
    RetryTrace α :=
  retry_go h op (h.max_retries + 1) 0 [] none

/-! Connection release paths, from src/services/ssl_handler.py and
src/services/nzb_service_enhanced.py. -/

/-- What happened to a checked-out connection: whether its use raised an
exception, and whether `_test_connection` (a `conn.date()` no-op command,
ssl_handler.py lines 105-112) would succeed on it afterwards. -/
structure PooledConn where
  errored_during_use : Bool
  healthy_after_use : Bool
deriving DecidableEq, Repr

/-- Embeds the release portion of `SSLConnectionManager.get_connection`
(ssl_handler.py lines 135-181): an exception during use quits the
connection and clears the local `conn`, so the `finally` block skips it;
otherwise the `finally` block health-checks with `_test_connection` and
returns the connection with `put_nowait` only if it passes and the queue
is below `maxsize`; in every other case the connection is closed. -/
def ssl_release (pool : List PooledConn) (maxsize : Nat) (conn : PooledConn) :
    List PooledConn :=
  if conn.errored_during_use then pool
  else if conn.healthy_after_use then
    if pool.length < maxsize then pool ++ [conn] else pool
  else pool

/-- Embeds `EnhancedNZBService._return_connection`
(nzb_service_enhanced.py lines 161-170): the connection is appended to the
pool whenever the pool is below `server_config.connections`, with no health
check of any kind; only at capacity is it quit instead. This is the release
path used by `_download_segment_internal`'s `finally` block (lines
431-433), which runs on success and on error alike. -/
def return_connection (pool : List PooledConn) (max_connections : Nat)
    (conn : PooledConn) : List PooledConn :=
  if pool.length < max_connections then pool ++ [conn] else pool

/-! Full manual decoder pipeline, from src/services/yenc_decoder.py
`_find_yenc_parts` (lines 32-76) and `decode_yenc` (lines 78-136). The
Python code first decodes the raw bytes with
`data.decode('utf-8', errors='ignore')` — a total conversion that drops
undecodable bytes — so the pipeline below is embedded over the resulting
character sequence. -/

/-- Python slice `s[a:b]` on a character list (indices clamp like
Python's). -/
def pySlice (l : List Char) (a b : Nat) : List Char := (l.take b).drop a

/-- The ASCII portion of Python's `str.strip()` whitespace set. -/
def pyIsSpace (c : Char) : Bool :=
  c == ' ' || c == '\t' || c == '\n' || c == '\r' || c == '\x0b' || c == '\x0c'

/-- Python `str.strip()`. -/
def pyStrip (l : List Char) : List Char :=
  ((l.dropWhile pyIsSpace).reverse.dropWhile pyIsSpace).reverse

/-- Python `s.split(' ')`: split at every single space, keeping empty
fields. -/
def splitOnSpace : List Char → List (List Char)
  | [] => [[]]
  | c :: t =>
    if c == ' ' then [] :: splitOnSpace t
    else
      match splitOnSpace t with
      | [] => [[c]]
      | w :: ws => (c :: w) :: ws

/-- Embeds `_parse_yenc_header` (yenc_decoder.py lines 22-30):
`header.split(' ')`, keep tokens containing `'='`, split each once at its
first `'='`. The result is kept as the ordered key/value sequence the dict
assignments produce. -/
def parse_yenc_header (header : List Char) : List (List Char × List Char) :=
  (splitOnSpace header).filterMap (fun w =>
    if w.any (fun c => c == '=') then
      some (w.takeWhile (fun c => !(c == '=')),
            (w.dropWhile (fun c => !(c == '='))).drop 1)
    else none)

/-- Python dict lookup on the header pairs: the last assignment to a key
wins. -/
def header_get (h : List (List Char × List Char)) (key : List Char) :
    Option (List Char) :=
  (h.reverse.find? (fun p => p.1 == key)).map Prod.snd

/-- Python `int(...)` on a string: optional surrounding whitespace,
optional sign, then at least one decimal digit; anything else raises
(modeled as `none`). -/
def parse_int (s : List Char) : Option Int :=
  let t := pyStrip s
  let sign : Int := match t with
    | '-' :: _ => -1
    | _ => 1
  let digits := match t with
    | '-' :: d => d
    | '+' :: d => d
    | d => d
  if digits.isEmpty then none
  else if digits.all (fun c => c.isDigit) then
    some (sign * (digits.foldl (fun acc c => acc * 10 + ((c.toNat - 48 : Nat) : Int)) 0))
  else none

/-- Scanner for `re.finditer(r'=ybegin .*?\r\n', content, re.DOTALL)`
(yenc_decoder.py line 40): leftmost non-overlapping matches, each starting
at an `"=ybegin "` occurrence and ending just after the first `"\r\n"`
that follows (with DOTALL, `.` also crosses bare newlines); scanning
resumes at the match end. Returns (start, end) index pairs. The fuel
bounds the (always advancing) scan position. -/
def scan_ybegin (content : List Char) : Nat → Nat → List (Nat × Nat)
  | 0, _ => []
  | fuel + 1, i =>
    if ("=ybegin ".toList).isPrefixOf (content.drop i) then
      match findSub "\r\n".toList (content.drop (i + 8)) with
      | some r => (i, i + 8 + r + 2) :: scan_ybegin content fuel (i + 8 + r + 2)
      | none => if i < content.length then scan_ybegin content fuel (i + 1) else []
    else if i < content.length then scan_ybegin content fuel (i + 1) else []

/-- `re.search(KEY + r'.*?\r\n', text)` without DOTALL (yenc_decoder.py
lines 49 and 53): at a candidate start the non-greedy match must end at
the first `'\n'` after the key, and that `'\n'` must be directly preceded
by `'\r'`; otherwise the candidate fails and the engine advances one
position. Returns (start, end) of the leftmost match. -/
def search_key_line (key : List Char) (text : List Char) : Nat → Nat → Option (Nat × Nat)
  | 0, _ => none
  | fuel + 1, p =>
    if key.isPrefixOf (text.drop p) then
      match (text.drop (p + key.length)).findIdx? (fun c => c == '\n') with
      | some q =>
        if 1 ≤ q ∧ (text.drop (p + key.length))[q - 1]? = some '\r' then
          some (p, p + key.length + q + 1)
        else if p < text.length then search_key_line key text fuel (p + 1) else none
      | none => if p < text.length then search_key_line key text fuel (p + 1) else none
    else if p < text.length then search_key_line key text fuel (p + 1) else none

/-- `re.search(r'\r\n=yend.*', text)` without DOTALL (yenc_decoder.py line
57): the leftmost occurrence of `"\r\n=yend"`, with `.*` extending
greedily to just before the next `'\n'` or the end of the text. Returns
the match start and the matched text. -/
def search_yend (text : List Char) : Option (Nat × List Char) :=
  match findSub "\r\n=yend".toList text with
  | some i =>
    some (i, "\r\n=yend".toList ++ (text.drop (i + 7)).takeWhile (fun c => !(c == '\n')))
  | none => none

/-- One parsed yEnc part, as assembled by `_find_yenc_parts`. -/
structure YencPart where
  ybegin : List (List Char × List Char)
  ypart : List (List Char × List Char)
  yend : List (List Char × List Char)
  data : List Char

/-- One iteration of the part-extraction loop of `_find_yenc_parts`
(yenc_decoder.py lines 42-74), for the outer match at (start, hend) whose
successor match starts at next_start (or the content length). The source
slices the relative `part_text` with the absolute indices `header_end` and
`next_start` (exact for a part starting at offset 0, shifted otherwise) —
the embedding reproduces that as written. A failing inner non-DOTALL
`=ybegin` search raises (`.group(0)` on `None`) and the
`except Exception: continue` skips the part, modeled as `none`. -/
def build_part (content : List Char) (start hend next_start : Nat) : Option YencPart :=
  let part_text := pySlice content start next_start
  match search_key_line "=ybegin ".toList part_text (part_text.length + 1) 0 with
  | none => none
  | some (bs, be) =>
    let ybegin := parse_yenc_header (pyStrip (pySlice part_text bs be))
    let ypartM := search_key_line "=ypart ".toList part_text (part_text.length + 1) 0
    let ypart := match ypartM with
      | some (ps, pe) => parse_yenc_header (pyStrip (pySlice part_text ps pe))
      | none => []
    let yendM := search_yend part_text
    let yend := match yendM with
      | some (_, txt) => parse_yenc_header (pyStrip txt)
      | none => []
    let data_start := match ypartM with
      | some (_, pe) => pe
      | none => hend
    let data_end := match yendM with
      | some (ys, _) => ys
      | none => next_start
    some ⟨ybegin, ypart, yend, pyStrip (pySlice part_text data_start data_end)⟩

/-- Pairs each match with the start of the next one (or the content
length), as `_find_yenc_parts` does with `positions[i + 1][0]`. -/
def with_next_start (positions : List (Nat × Nat)) (endPos : Nat) :
    List ((Nat × Nat) × Nat) :=
  match positions with
  | [] => []
  | [p] => [(p, endPos)]
  | p :: q :: t => (p, q.1) :: with_next_start (q :: t) endPos

/-- Embeds `_find_yenc_parts` (yenc_decoder.py lines 32-76). -/
def find_yenc_parts (content : List Char) : List YencPart :=
  let positions := scan_ybegin content (content.length + 1) 0
  (with_next_start positions content.length).filterMap
    (fun pq => build_part content pq.1.1 pq.1.2 pq.2)

/-- Python `decoded_parts[part_num] = v` preceded by
`while len(decoded_parts) <= part_num: decoded_parts.append(None)`
(yenc_decoder.py lines 121-124): a negative `part_num` skips the padding
and indexes from the end; an out-of-range index raises (`none`, turned
into skipping the part by the caller's `except`). -/
def set_decoded_part (parts : List (Option SegBytes)) (part_num : Int) (v : SegBytes) :
    Option (List (Option SegBytes)) :=
  if 0 ≤ part_num then
    let padded := parts ++ List.replicate ((part_num.toNat + 1) - parts.length) none
    some (padded.set part_num.toNat (some v))
  else
    let j : Int := (parts.length : Int) + part_num
    if 0 ≤ j then some (parts.set j.toNat (some v)) else none

/-- One iteration of the per-part decode loop of `decode_yenc`
(yenc_decoder.py lines 98-127): decode the part's data with the escape
loop, compute `part_num` as `int(part['ypart'].get('part', '1')) - 1` when
an `=ypart` header is present and `0` otherwise, and store the decoded
bytes at that slot; any exception (an unparsable `part` field, a bad
index) skips the part, leaving the slots unchanged. -/
def process_part (parts : List (Option SegBytes)) (part : YencPart) :
    List (Option SegBytes) :=
  let decoded := decode_body (part.data.map Char.toNat)
  let part_num : Option Int :=
    if part.ypart.isEmpty then some 0
    else (parse_int ((header_get part.ypart "part".toList).getD "1".toList)).map (· - 1)
  match part_num with
  | none => parts
  | some pn =>
    match set_decoded_part parts pn decoded with
    | some ps => ps
    | none => parts

/-- Embeds `decode_yenc` (yenc_decoder.py lines 78-136). Returns the
decoded payload, `none` when no yEnc part is found or a part slot stayed
unfilled; the enclosing `try/except` returns `None` on any exception, so
the Python function is total at its boundary, which the embedding
reflects by construction. -/
def decode_yenc (content : List Char) : Option SegBytes :=
  let parts := find_yenc_parts content
  if parts.isEmpty then none
  else
    let decoded_parts := parts.foldl process_part []
    if decoded_parts.all (fun p => p.isSome) then
      some ((decoded_parts.map (fun p => p.getD [])).flatten)
    else none

/-- Per-segment task results for a 100-segment file whose first `s`
ordinals succeed and whose remaining ordinals fail, used to check the
79%/80%/81% success-rate boundary of `download_file`. -/
def results_of_100 (s : Nat) : List (Nat × Except ErrorInfo SegBytes) :=
  (List.range 100).map (fun i =>
    (i + 1, if i < s then Except.ok [i % 256]
            else Except.error (error_patterns_base .ktimeout)))

/-! Theorems. -/

/-- C1 counterexample: the claim says an escaped byte decodes as
`(next - 64) mod 256`, so the body bytes `"=J"` (codes 61, 74) would have
to decode to `[10]`; the decoders instead apply the ordinary
`(next - 42) mod 256` rule to the escaped byte (`decode_yenc` feeds it to
`_decode_char`, `_manual_yenc_decode` merely skips the `'='`), producing
`[32]`. -/
theorem yenc_escape_counterexample :
    decode_body [61, 74] = [32] ∧
    manual_decode_line [61, 74] = [(32 : Int)] ∧
    decode_body [61, 74] ≠ [(74 - 64) % 256] := by decide

/-- C1 amended: for byte values `c < 256`, both decoders map a non-control
input byte `c` to `(c - 42) mod 256` (written `(c + 214) % 256` over `Nat`;
`214 = 256 - 42`), the result always lies in `0..255` and is never
negative; but an escaped byte (the byte after `'='`) is decoded with the
same `(next - 42) mod 256` rule, not `(next - 64) mod 256`. -/
theorem yenc_per_byte_rule :
    (∀ c, c < 256 → decode_char c = (c + 214) % 256 ∧ decode_char c < 256) ∧
    (∀ d rest, decode_body (61 :: d :: rest) = decode_char d :: decode_body rest) ∧
    (∀ c rest, c ≠ 61 → c ≠ 13 → c ≠ 10 →
      decode_body (c :: rest) = decode_char c :: decode_body rest) ∧
    (∀ c, c < 256 → manual_decode_char c = ((c : Int) + 214) % 256 ∧
      0 ≤ manual_decode_char c ∧ manual_decode_char c < 256) := by
  refine ⟨by decide, ?_, ?_, by decide⟩
  · intro d rest
    rfl
  · intro c rest h61 h13 h10
    rw [decode_body.eq_def]
    simp [h61, h13, h10]

/-- Witness for the amended C1 theorem at the repository's own test byte
`'q'` (113, decoding to 71 = `'G'`) and at the escaped byte 74. -/
theorem yenc_per_byte_rule_witness :
    (decode_char 113 = (113 + 214) % 256 ∧ decode_char 113 < 256) ∧
    decode_body [61, 74, 10] = decode_char 74 :: decode_body [10] ∧
    decode_body [113] = decode_char 113 :: decode_body [] ∧
    (manual_decode_char 113 = ((113 : Int) + 214) % 256 ∧
      0 ≤ manual_decode_char 113 ∧ manual_decode_char 113 < 256) :=
  ⟨yenc_per_byte_rule.1 113 (by decide),
   yenc_per_byte_rule.2.1 74 [10],
   yenc_per_byte_rule.2.2.1 113 [] (by decide) (by decide) (by decide),
   yenc_per_byte_rule.2.2.2 113 (by decide)⟩

/-! Helper lemmas about the Python-dict model used by `download_file`. -/

theorem find?_map_overwrite (k : Nat) (v : SegBytes) :
    ∀ m : SegDict, m.any (fun p => p.1 == k) = true →
      (m.map (fun p => if p.1 = k then (k, v) else p)).find? (fun p => p.1 == k) =
        some (k, v)
  | [], h => by simp at h
  | a :: t, h => by
    by_cases hak : a.1 = k
    · simp only [List.map_cons, if_pos hak]
      exact List.find?_cons_of_pos _ (by simp)
    · have ht : t.any (fun p => p.1 == k) = true := by
        simp only [List.any_cons, Bool.or_eq_true, beq_iff_eq] at h
        rcases h with h | h
        · exact absurd h hak
        · exact h
      simp only [List.map_cons, if_neg hak]
      rw [List.find?_cons_of_neg _ (by simp [hak])]
      exact find?_map_overwrite k v t ht

theorem find?_map_other (j k : Nat) (v : SegBytes) (hjk : j ≠ k) :
    ∀ m : SegDict,
      (m.map (fun p => if p.1 = j then (j, v) else p)).find? (fun p => p.1 == k) =
        m.find? (fun p => p.1 == k)
  | [] => rfl
  | a :: t => by
    by_cases haj : a.1 = j
    · simp only [List.map_cons, if_pos haj]
      rw [List.find?_cons_of_neg _ (by simp [hjk]),
          List.find?_cons_of_neg _ (by simp [haj, hjk])]
      exact find?_map_other j k v hjk t
    · simp only [List.map_cons, if_neg haj]
      by_cases hak : a.1 = k
      · rw [List.find?_cons_of_pos _ (by simp [hak]),
            List.find?_cons_of_pos _ (by simp [hak])]
      · rw [List.find?_cons_of_neg _ (by simp [hak]),
            List.find?_cons_of_neg _ (by simp [hak])]
        exact find?_map_other j k v hjk t

theorem dict_lookup_insert_self (m : SegDict) (k : Nat) (v : SegBytes) :
    dict_lookup (dict_insert m k v) k = some v := by
  unfold dict_insert dict_lookup
  by_cases h : m.any (fun p => p.1 == k) = true
  · rw [if_pos h, find?_map_overwrite k v m h]
    rfl
  · rw [if_neg h, List.find?_append]
    have hnone : m.find? (fun p => p.1 == k) = none :=
      List.find?_eq_none.mpr (fun x hx hpx => h (List.any_eq_true.mpr ⟨x, hx, hpx⟩))
    rw [hnone]
    simp [List.find?]

theorem dict_lookup_insert_other (m : SegDict) (j k : Nat) (v : SegBytes)
    (hjk : j ≠ k) : dict_lookup (dict_insert m j v) k = dict_lookup m k := by
  unfold dict_insert dict_lookup
  by_cases h : m.any (fun p => p.1 == j) = true
  · rw [if_pos h, find?_map_other j k v hjk m]
  · rw [if_neg h, List.find?_append]
    have hone : List.find? (fun p => p.1 == k) [(j, v)] = none := by simp [hjk]
    rw [hone]
    cases m.find? (fun p => p.1 == k) <;> rfl

theorem dict_insert_not_mem (m : SegDict) (k : Nat) (v : SegBytes)
    (h : k ∉ dict_keys m) : dict_insert m k v = m ++ [(k, v)] := by
  unfold dict_insert
  rw [if_neg ?hc]
  case hc =>
    intro hany
    obtain ⟨x, hx, hxk⟩ := List.any_eq_true.mp hany
    exact h (List.mem_map.mpr ⟨x, hx, by simpa using hxk⟩)

theorem foldl_insert_lookup_not_mem :
    ∀ (l : List (Nat × SegBytes)) (m : SegDict) (k : Nat), k ∉ l.map Prod.fst →
      dict_lookup (l.foldl (fun m p => dict_insert m p.1 p.2) m) k = dict_lookup m k
  | [], _, _, _ => rfl
  | a :: t, m, k, h => by
    simp only [List.map_cons, List.mem_cons, not_or] at h
    obtain ⟨h1, h2⟩ := h
    rw [List.foldl_cons, foldl_insert_lookup_not_mem t _ k h2]
    exact dict_lookup_insert_other m a.1 k a.2 (fun he => h1 he.symm)

theorem foldl_insert_lookup_mem :
    ∀ (l : List (Nat × SegBytes)) (m : SegDict) (k : Nat) (v : SegBytes),
      (l.map Prod.fst).Nodup → (k, v) ∈ l →
      dict_lookup (l.foldl (fun m p => dict_insert m p.1 p.2) m) k = some v
  | [], _, _, _, _, hmem => absurd hmem (List.not_mem_nil _)
  | a :: t, m, k, v, hnd, hmem => by
    simp only [List.map_cons, List.nodup_cons] at hnd
    obtain ⟨hna, hndt⟩ := hnd
    rw [List.foldl_cons]
    rcases List.mem_cons.mp hmem with he | ht
    · cases he
      have hknt : k ∉ t.map Prod.fst := by simpa using hna
      rw [foldl_insert_lookup_not_mem t _ k hknt]
      exact dict_lookup_insert_self m k v
    · exact foldl_insert_lookup_mem t _ k v hndt ht

theorem foldl_insert_length :
    ∀ (l : List (Nat × SegBytes)) (m : SegDict),
      (l.map Prod.fst).Nodup → (∀ x ∈ l.map Prod.fst, x ∉ dict_keys m) →
      (l.foldl (fun m p => dict_insert m p.1 p.2) m).length = m.length + l.length
  | [], m, _, _ => by simp
  | a :: t, m, hnd, hdisj => by
    simp only [List.map_cons, List.nodup_cons] at hnd
    obtain ⟨hna, hndt⟩ := hnd
    have hham : a.1 ∉ dict_keys m := hdisj a.1 (by simp)
    rw [List.foldl_cons, dict_insert_not_mem m a.1 a.2 hham]
    have hdisj2 : ∀ x ∈ t.map Prod.fst, x ∉ dict_keys (m ++ [(a.1, a.2)]) := by
      intro x hx
      unfold dict_keys
      rw [List.map_append]
      simp only [List.mem_append, not_or]
      refine ⟨hdisj x (by simp [hx]), ?_⟩
      simp only [List.map_cons, List.map_nil, List.mem_singleton]
      intro hxa
      exact hna (hxa ▸ hx)
    rw [foldl_insert_length t _ hndt hdisj2]
    simp only [List.length_append, List.length_cons, List.length_nil,
      List.length_singleton]
    omega

theorem build_segment_data_lookup_mem (l : List (Nat × SegBytes)) (k : Nat)
    (v : SegBytes) (hnd : (l.map Prod.fst).Nodup) (hmem : (k, v) ∈ l) :
    dict_lookup (build_segment_data l) k = some v :=
  foldl_insert_lookup_mem l [] k v hnd hmem

theorem build_segment_data_lookup_not_mem (l : List (Nat × SegBytes)) (k : Nat)
    (h : k ∉ l.map Prod.fst) : dict_lookup (build_segment_data l) k = none :=
  (foldl_insert_lookup_not_mem l [] k h).trans rfl

theorem build_segment_data_len (l : List (Nat × SegBytes))
    (hnd : (l.map Prod.fst).Nodup) : dict_len (build_segment_data l) = l.length := by
  unfold dict_len build_segment_data
  rw [foldl_insert_length l [] hnd (by intro x _; simp [dict_keys])]
  simp

/-- C3: the reassembled output is the concatenation of the successfully
decoded segment bytes in strictly ascending ordinal order (the loop
`for i in range(1, N + 1)` of `download_file`), and it does not depend on
the order in which the concurrent fetches complete: any two arrival orders
of the same set of successful `(ordinal, bytes)` results build the same
`segment_data` dict and hence the same combined bytes. -/
theorem reassembly_order_independent (l1 l2 : List (Nat × SegBytes))
    (hperm : l1.Perm l2) (hnd : (l1.map Prod.fst).Nodup) (n : Nat) :
    combine_segments (build_segment_data l1) n =
      combine_segments (build_segment_data l2) n := by
  have hnd2 : (l2.map Prod.fst).Nodup := (hperm.map Prod.fst).nodup_iff.mp hnd
  have hlook : ∀ k, dict_lookup (build_segment_data l1) k =
      dict_lookup (build_segment_data l2) k := by
    intro k
    by_cases hk : k ∈ l1.map Prod.fst
    · obtain ⟨p, hp, hpk⟩ := List.mem_map.mp hk
      have hp1 : (k, p.2) ∈ l1 := by
        have hpe : p = (k, p.2) := by
          rw [← hpk]
        rw [← hpe]
        exact hp
      have hp2 : (k, p.2) ∈ l2 := hperm.subset hp1
      rw [build_segment_data_lookup_mem l1 k p.2 hnd hp1,
          build_segment_data_lookup_mem l2 k p.2 hnd2 hp2]
    · have hk2 : k ∉ l2.map Prod.fst := fun hmem =>
        hk ((hperm.map Prod.fst).mem_iff.mpr hmem)
      rw [build_segment_data_lookup_not_mem l1 k hk,
          build_segment_data_lookup_not_mem l2 k hk2]
  unfold combine_segments
  exact congrArg List.flatten (List.map_congr_left (fun i _ => by rw [hlook i]))

/-- Witness for C3 on a two-segment file: if segment 2's response arrives
before segment 1's, the assembled bytes are still decoded segment 1
followed by decoded segment 2. -/
theorem reassembly_order_independent_witness :
    combine_segments (build_segment_data [(1, [10, 20]), (2, [30])]) 2 =
      combine_segments (build_segment_data [(2, [30]), (1, [10, 20])]) 2 ∧
    combine_segments (build_segment_data [(2, [30]), (1, [10, 20])]) 2 =
      [10, 20, 30] :=
  ⟨reassembly_order_independent [(1, [10, 20]), (2, [30])]
      [(2, [30]), (1, [10, 20])] (by decide) (by decide) 2,
   by decide⟩

/-- C2: with `success_rate = len(segment_data) / len(file_info.segments)`
(modeled as an exact rational), a rate strictly below 0.8 makes the whole
file fail with an NNTP_SERVER/HIGH non-retriable "too many failed
segments" error, and a rate of at least 0.8 (including exactly 0.8)
proceeds to ordinal-order reassembly. -/
theorem download_file_threshold (results : List (Nat × Except ErrorInfo SegBytes))
    (hpos : 0 < results.length) :
    ((dict_len (build_segment_data (successes results)) : ℚ) / (results.length : ℚ) < 0.8 →
      ∃ e, download_file results = .error e ∧ e.category = .NNTP_SERVER ∧
        e.severity = .HIGH ∧ e.retriable = false) ∧
    (0.8 ≤ (dict_len (build_segment_data (successes results)) : ℚ) / (results.length : ℚ) →
      download_file results =
        .ok (combine_segments (build_segment_data (successes results)) results.length)) := by
  constructor
  · intro hr
    have heq : download_file results = Except.error
        ⟨.NNTP_SERVER, .HIGH,
          "Too many failed segments: " ++ toString (failed_count results) ++ "/" ++
            toString results.length,
          false, "Check server availability and article retention", []⟩ := by
      simp only [download_file]
      rw [if_pos hr]
    exact ⟨_, heq, rfl, rfl, rfl⟩
  · intro hr
    simp only [download_file]
    rw [if_neg (not_lt.mpr hr)]

/-- Witness for C2 at the 79%/80%/81% boundary on a 100-segment file:
79 successes fail the file, 80 and 81 successes proceed to reassembly. -/
theorem download_file_threshold_witness :
    (∃ e, download_file (results_of_100 79) = .error e ∧
      e.category = .NNTP_SERVER ∧ e.severity = .HIGH ∧ e.retriable = false) ∧
    download_file (results_of_100 80) =
      .ok (combine_segments (build_segment_data (successes (results_of_100 80)))
        (results_of_100 80).length) ∧
    download_file (results_of_100 81) =
      .ok (combine_segments (build_segment_data (successes (results_of_100 81)))
        (results_of_100 81).length) := by
  have hlen : ∀ s, (results_of_100 s).length = 100 := by
    intro s
    simp [results_of_100]
  have h79 : dict_len (build_segment_data (successes (results_of_100 79))) = 79 := by decide
  have h80 : dict_len (build_segment_data (successes (results_of_100 80))) = 80 := by decide
  have h81 : dict_len (build_segment_data (successes (results_of_100 81))) = 81 := by decide
  refine ⟨(download_file_threshold (results_of_100 79) (by rw [hlen]; norm_num)).1 ?_,
    (download_file_threshold (results_of_100 80) (by rw [hlen]; norm_num)).2 ?_,
    (download_file_threshold (results_of_100 81) (by rw [hlen]; norm_num)).2 ?_⟩
  · rw [h79, hlen]
    norm_num
  · rw [h80, hlen]
    norm_num
  · rw [h81, hlen]
    norm_num

/-- C10: the reassembly loop reads only ordinals 1..N, so a successfully
fetched segment whose ordinal is 0 or greater than N is excluded from the
assembled bytes (filtering it away changes nothing), while it still counts
toward `len(segment_data)` and hence toward the success ratio. -/
theorem out_of_range_ordinal_excluded (l : List (Nat × SegBytes)) (n k : Nat)
    (b : SegBytes) (hmem : (k, b) ∈ l) (hk : k = 0 ∨ n < k)
    (hnd : (l.map Prod.fst).Nodup) :
    dict_len (build_segment_data l) = l.length ∧
    (k, b) ∉ l.filter (fun p => decide (1 ≤ p.1) && decide (p.1 ≤ n)) ∧
    combine_segments (build_segment_data l) n =
      combine_segments
        (build_segment_data (l.filter (fun p => decide (1 ≤ p.1) && decide (p.1 ≤ n)))) n := by
  have hndf : ((l.filter (fun p => decide (1 ≤ p.1) && decide (p.1 ≤ n))).map Prod.fst).Nodup :=
    List.Nodup.sublist (List.Sublist.map Prod.fst (List.filter_sublist l)) hnd
  refine ⟨build_segment_data_len l hnd, ?_, ?_⟩
  · intro hmf
    have hpred := (List.mem_filter.mp hmf).2
    simp only [decide_eq_true_eq, Bool.and_eq_true] at hpred
    obtain ⟨h1, h2⟩ := hpred
    rcases hk with hk | hk <;> omega
  · unfold combine_segments
    refine congrArg List.flatten (List.map_congr_left ?_)
    intro i hi
    have hrange := List.mem_range'_1.mp hi
    by_cases hik : i ∈ l.map Prod.fst
    · obtain ⟨p, hp, hpk⟩ := List.mem_map.mp hik
      have hpf : p ∈ l.filter (fun p => decide (1 ≤ p.1) && decide (p.1 ≤ n)) :=
        List.mem_filter.mpr ⟨hp, by simp only [hpk, decide_eq_true_eq, Bool.and_eq_true]; omega⟩
      have hpl : (i, p.2) ∈ l := by
        have hpe : p = (i, p.2) := by
          rw [← hpk]
        rw [← hpe]
        exact hp
      have hplf : (i, p.2) ∈ l.filter (fun p => decide (1 ≤ p.1) && decide (p.1 ≤ n)) := by
        have hpe : p = (i, p.2) := by
          rw [← hpk]
        rw [← hpe]
        exact hpf
      rw [build_segment_data_lookup_mem l i p.2 hnd hpl,
          build_segment_data_lookup_mem _ i p.2 hndf hplf]
    · have hikf : i ∉ (l.filter (fun p => decide (1 ≤ p.1) && decide (p.1 ≤ n))).map Prod.fst := by
        intro hmem2
        obtain ⟨q, hq, hqk⟩ := List.mem_map.mp hmem2
        exact hik (List.mem_map.mpr ⟨q, (List.mem_filter.mp hq).1, hqk⟩)
      rw [build_segment_data_lookup_not_mem l i hik,
          build_segment_data_lookup_not_mem _ i hikf]

/-- Witness for C10: a file with one in-range segment (ordinal 1) plus a
fetched segment with ordinal 0; the ordinal-0 bytes are absent from the
assembled output while the dict size still counts both. -/
theorem out_of_range_ordinal_excluded_witness :
    dict_len (build_segment_data [(1, [5]), (0, [9])]) = 2 ∧
    (0, [9]) ∉ ([(1, [5]), (0, [9])] : List (Nat × SegBytes)).filter
      (fun p => decide (1 ≤ p.1) && decide (p.1 ≤ 1)) ∧
    combine_segments (build_segment_data [(1, [5]), (0, [9])]) 1 = [5] := by
  have h := out_of_range_ordinal_excluded [(1, [5]), (0, [9])] 1 0 [9]
    (by decide) (Or.inl rfl) (by decide)
  exact ⟨h.1, h.2.1, by decide⟩

/-! Retry handler lemmas. -/

theorem retry_go_invocations_le {α : Type} (h : EnhancedRetryHandler)
    (op : Nat → Except ErrorInfo α) :
    ∀ (fuel attempt : Nat) (ds : List ℚ) (lastE : Option ErrorInfo),
      (retry_go h op fuel attempt ds lastE).invocations ≤ attempt + fuel
  | 0, attempt, ds, lastE => by simp [retry_go]
  | fuel + 1, attempt, ds, lastE => by
    cases hop : op attempt with
    | ok v => simp only [retry_go, hop]; omega
    | error e =>
      simp only [retry_go, hop]
      by_cases hsr : should_retry h e attempt = true
      · rw [if_pos hsr]
        by_cases hlt : attempt < h.max_retries
        · rw [if_pos hlt]
          have := retry_go_invocations_le h op fuel (attempt + 1)
            (ds ++ [get_delay h attempt]) (some e)
          omega
        · rw [if_neg hlt]
          show attempt + 1 ≤ attempt + (fuel + 1)
          omega
      · rw [if_neg hsr]
        show attempt + 1 ≤ attempt + (fuel + 1)
        omega

theorem retry_go_delays {α : Type} (h : EnhancedRetryHandler)
    (op : Nat → Except ErrorInfo α) :
    ∀ (fuel attempt : Nat) (ds : List ℚ) (lastE : Option ErrorInfo),
      ∃ j, (retry_go h op fuel attempt ds lastE).delays =
        ds ++ (List.range' attempt j).map (get_delay h)
  | 0, attempt, ds, lastE => ⟨0, by simp [retry_go]⟩
  | fuel + 1, attempt, ds, lastE => by
    cases hop : op attempt with
    | ok v => exact ⟨0, by simp [retry_go, hop]⟩
    | error e =>
      by_cases hsr : should_retry h e attempt = true
      · by_cases hlt : attempt < h.max_retries
        · obtain ⟨j, hj⟩ := retry_go_delays h op fuel (attempt + 1)
            (ds ++ [get_delay h attempt]) (some e)
          refine ⟨j + 1, ?_⟩
          simp only [retry_go, hop]
          rw [if_pos hsr, if_pos hlt, hj, List.range'_succ]
          simp
        · exact ⟨0, by simp [retry_go, hop, hsr, hlt]⟩
      · exact ⟨0, by simp [retry_go, hop, hsr]⟩

/-- C4: one `retry` run invokes the wrapped operation at most
`max_retries + 1` times (the total attempt budget), and the backoff delay
slept between attempt `n` and attempt `n + 1` (0-indexed) is exactly
`get_delay n = min(base_delay * 2 ^ n, max_delay)`. -/
theorem retry_bound_and_backoff {α : Type} (h : EnhancedRetryHandler)
    (op : Nat → Except ErrorInfo α) :
    (retry h op).invocations ≤ h.max_retries + 1 ∧
    ∀ (i : Nat) (hi : i < (retry h op).delays.length),
      (retry h op).delays.get ⟨i, hi⟩ = get_delay h i ∧
      get_delay h i = min (h.base_delay * 2 ^ i) h.max_delay := by
  constructor
  · have := retry_go_invocations_le h op (h.max_retries + 1) 0 [] none
    simpa [retry] using this
  · intro i hi
    obtain ⟨j, hj⟩ := retry_go_delays h op (h.max_retries + 1) 0 [] none
    have hdel : (retry h op).delays = (List.range j).map (get_delay h) := by
      rw [List.range_eq_range']
      simpa [retry] using hj
    refine ⟨?_, rfl⟩
    have h1 := List.get_of_eq hdel ⟨i, hi⟩
    rw [h1]
    simp [List.get_eq_getElem, List.getElem_map, List.getElem_range]

/-- Witness for C4 with `max_retries = 3`, `base_delay = 1`,
`max_delay = 30` and an always-failing retriable (timeout) operation:
the second delay (between attempts 1 and 2) is `min(1 * 2^1, 30)`. -/
theorem retry_bound_and_backoff_witness :
    (retry (⟨3, 1, 30⟩ : EnhancedRetryHandler)
      (fun _ => (Except.error (error_patterns_base .ktimeout) :
        Except ErrorInfo SegBytes))).invocations ≤ 3 + 1 ∧
    (retry (⟨3, 1, 30⟩ : EnhancedRetryHandler)
      (fun _ => (Except.error (error_patterns_base .ktimeout) :
        Except ErrorInfo SegBytes))).delays.get ⟨1, by decide⟩ =
      get_delay ⟨3, 1, 30⟩ 1 ∧
    get_delay ⟨3, 1, 30⟩ 1 = min ((1 : ℚ) * 2 ^ 1) 30 := by
  have hth := retry_bound_and_backoff (⟨3, 1, 30⟩ : EnhancedRetryHandler)
    (fun _ => (Except.error (error_patterns_base .ktimeout) : Except ErrorInfo SegBytes))
  exact ⟨hth.1, (hth.2 1 (by decide)).1, (hth.2 1 (by decide)).2⟩

/-- C7: a failure classified in the SSL/TLS category is eligible for retry
regardless of its `retriable` flag (while the attempts bound is still
respected), and a non-retriable failure outside that category stops the
handler immediately: the wrapped operation is invoked exactly once when
its first attempt raises such an error, which is re-raised unchanged. -/
theorem tls_override_and_nonretriable (h : EnhancedRetryHandler) (e : ErrorInfo) :
    (e.category = .SSL_CONNECTION → ∀ n, n < h.max_retries →
      should_retry h e n = true) ∧
    (e.retriable = false → e.category ≠ .SSL_CONNECTION → ∀ n,
      should_retry h e n = false) ∧
    (e.retriable = false → e.category ≠ .SSL_CONNECTION →
      ∀ op : Nat → Except ErrorInfo SegBytes, op 0 = .error e →
        (retry h op).invocations = 1 ∧ (retry h op).result = .error e) := by
  refine ⟨?_, ?_, ?_⟩
  · intro hc n hn
    unfold should_retry
    rw [if_neg (by omega), if_pos hc]
  · intro hr hc n
    unfold should_retry
    by_cases hle : h.max_retries ≤ n
    · rw [if_pos hle]
    · rw [if_neg hle, if_neg hc, hr]
  · intro hr hc op hop
    have hsr : should_retry h e 0 = false := by
      unfold should_retry
      by_cases hle : h.max_retries ≤ 0
      · rw [if_pos hle]
      · rw [if_neg hle, if_neg hc, hr]
    have hrun : retry_go h op (h.max_retries + 1) 0 [] none =
        ⟨Except.error e, 1, []⟩ := by
      rw [retry_go.eq_2, hop]
      simp [hsr]
    unfold retry
    rw [hrun]
    exact ⟨rfl, rfl⟩

/-- Witness for C7: the message `"480 authentication required"` classifies
to Authentication/Critical/non-retriable and an operation that raises it
is attempted exactly once; an SSL-category error is retried at attempt 0
despite any flag. -/
theorem tls_override_and_nonretriable_witness :
    (categorize_error initial_classifier_state
      "480 authentication required".toList [] []).1.category = .AUTHENTICATION ∧
    (categorize_error initial_classifier_state
      "480 authentication required".toList [] []).1.severity = .CRITICAL ∧
    (categorize_error initial_classifier_state
      "480 authentication required".toList [] []).1.retriable = false ∧
    (retry (⟨3, 1, 30⟩ : EnhancedRetryHandler) (fun _ =>
      (Except.error (categorize_error initial_classifier_state
        "480 authentication required".toList [] []).1 :
          Except ErrorInfo SegBytes))).invocations = 1 ∧
    should_retry ⟨3, 1, 30⟩ (error_patterns_base .kssl_eof) 0 = true := by
  refine ⟨by decide, by decide, by decide, ?_, ?_⟩
  · exact ((tls_override_and_nonretriable ⟨3, 1, 30⟩
      (categorize_error initial_classifier_state
        "480 authentication required".toList [] []).1).2.2
      (by decide) (by decide) _ rfl).1
  · exact (tls_override_and_nonretriable ⟨3, 1, 30⟩
      (error_patterns_base .kssl_eof)).1 (by decide) 0 (by decide)

/-! Classifier precedence lemma. -/

theorem select_pattern_ssl (s et : List Char) (hssl : containsSub "ssl" s = true) :
    select_pattern s et = some .kssl_eof ∨ select_pattern s et = some .kssl_protocol ∨
      select_pattern s et = some .kssl := by
  unfold select_pattern
  by_cases h1 : (containsSub "ssl" s && containsSub "eof" s) = true
  · rw [if_pos h1]
    exact Or.inl rfl
  · rw [if_neg h1]
    by_cases h2 : (containsSub "ssl" s &&
        (containsSub "closed" s || containsSub "connection" s)) = true
    · rw [if_pos h2]
      exact Or.inl rfl
    · rw [if_neg h2]
      by_cases h3 : (containsSub "tls" s &&
          (containsSub "closed" s || containsSub "eof" s)) = true
      · rw [if_pos h3]
        exact Or.inl rfl
      · rw [if_neg h3]
        by_cases h4 : containsSub "_ssl.c" s = true
        · rw [if_pos h4]
          exact Or.inl rfl
        · rw [if_neg h4]
          by_cases h5 : (containsSub "ssl" s && containsSub "protocol" s) = true
          · rw [if_pos h5]
            exact Or.inr (Or.inl rfl)
          · rw [if_neg h5]
            rw [if_pos (show (containsSub "ssl" s || containsSub "certificate" s) = true by
              rw [hssl]; rfl)]
            exact Or.inr (Or.inr rfl)

/-- C5: the TLS/SSL branches of `categorize_error` come before the network
branches, so any (lowercased) error message containing `"ssl"` — in
particular one that also contains `"timeout"` — classifies into the
SSL_CONNECTION category, never NETWORK. -/
theorem ssl_precedes_network (error_str error_type : List Char)
    (hssl : containsSub "ssl" error_str = true)
    (htimeout : containsSub "timeout" error_str = true)
    (st : ClassifierState) (ctx : Context) :
    (categorize_error st error_str error_type ctx).1.category = .SSL_CONNECTION ∧
    (categorize_error st error_str error_type ctx).1.category ≠ .NETWORK := by
  have hsel := select_pattern_ssl error_str error_type hssl
  rcases hsel with hs | hs | hs <;>
    refine ⟨?_, ?_⟩ <;>
      simp [categorize_error, hs, error_patterns_base]

/-- Witness for C5 on the message `"ssl handshake timeout"`. -/
theorem ssl_precedes_network_witness :
    (categorize_error initial_classifier_state
      "ssl handshake timeout".toList [] []).1.category = .SSL_CONNECTION ∧
    (categorize_error initial_classifier_state
      "ssl handshake timeout".toList [] []).1.category ≠ .NETWORK :=
  ssl_precedes_network "ssl handshake timeout".toList [] (by decide) (by decide)
    initial_classifier_state []

/-- C6 counterexample: classifying `"timeout"` first with context
`{"file": "a.bin"}` and then classifying `"timeout"` again with an empty
context returns an `ErrorInfo` whose context still contains
`("file", "a.bin")` — the second call does not get a fresh object, it gets
the shared `ERROR_PATTERNS["timeout"]` entry whose context dict the first
call mutated in place. A fresh, unmutated `ErrorInfo` would carry exactly
the second call's (empty) context. -/
theorem error_info_shared_mutation_counterexample :
    (categorize_error
        (categorize_error initial_classifier_state
          "timeout".toList [] [("file", "a.bin")]).2
        "timeout".toList [] []).1.context = [("file", "a.bin")] ∧
    (categorize_error
        (categorize_error initial_classifier_state
          "timeout".toList [] [("file", "a.bin")]).2
        "timeout".toList [] []).1.context ≠ [] := by decide

/-- C6 amended: the classification triple (category, severity, retriable)
is a pure function of the error message and exception type — independent
of the module state and of the supplied context — but the `ErrorInfo`
returned for a pattern-matched message is the shared table entry: its
context is the entry's accumulated context updated in place with the
caller's context, and the same updated dict is left behind in the module
state for future calls. -/
theorem classification_triple_pure (st st2 : ClassifierState) (s et : List Char)
    (ctx ctx2 : Context) :
    ((categorize_error st s et ctx).1.category =
        (categorize_error st2 s et ctx2).1.category ∧
      (categorize_error st s et ctx).1.severity =
        (categorize_error st2 s et ctx2).1.severity ∧
      (categorize_error st s et ctx).1.retriable =
        (categorize_error st2 s et ctx2).1.retriable) ∧
    ∀ k, select_pattern s et = some k →
      (categorize_error st s et ctx).1.context = ctx_update (st.contexts k) ctx ∧
      (categorize_error st s et ctx).2.contexts k = ctx_update (st.contexts k) ctx := by
  constructor
  · cases hsel : select_pattern s et <;> simp [categorize_error, hsel]
  · intro k hsel
    constructor
    · simp [categorize_error, hsel]
    · simp [categorize_error, hsel]

/-- Witness for the amended C6 theorem: the classification triple of
`"timeout"` is the same from the initial state and from the state mutated
by an earlier call; the returned context is the stored context updated
with the caller's context. -/
theorem classification_triple_pure_witness :
    (categorize_error initial_classifier_state
        "timeout".toList [] [("a", "1")]).1.category =
      (categorize_error
        (categorize_error initial_classifier_state
          "timeout".toList [] [("a", "1")]).2
        "timeout".toList [] []).1.category ∧
    (categorize_error initial_classifier_state
        "timeout".toList [] [("a", "1")]).1.context =
      ctx_update (initial_classifier_state.contexts .ktimeout) [("a", "1")] := by
  have hth := classification_triple_pure initial_classifier_state
    (categorize_error initial_classifier_state
      "timeout".toList [] [("a", "1")]).2
    "timeout".toList [] [("a", "1")] []
  exact ⟨hth.1.1, (hth.2 .ktimeout (by decide)).1⟩

/-- C8 counterexample: a connection that errored during use (and would
fail any health check) is nevertheless appended to the idle pool by
`EnhancedNZBService._return_connection`, which performs no health check:
with an empty pool of capacity 8, the dead connection ends up in the
pool. -/
theorem return_connection_no_health_check_counterexample :
    (⟨true, false⟩ : PooledConn) ∈ return_connection [] 8 ⟨true, false⟩ := by
  decide

/-- C8 amended: the `SSLConnectionManager` release path behaves as the
claim says — a connection that errored during use or fails the post-use
health check is closed and never returned, a healthy one is returned when
the pool has room — but `EnhancedNZBService._return_connection` returns
any connection (including one that errored during use) whenever the pool
is below capacity, with no health check. -/
theorem release_paths_behavior (pool : List PooledConn) (maxsize : Nat)
    (conn : PooledConn) :
    (conn.errored_during_use = true ∨ conn.healthy_after_use = false →
      ssl_release pool maxsize conn = pool) ∧
    (conn.errored_during_use = false → conn.healthy_after_use = true →
      pool.length < maxsize → ssl_release pool maxsize conn = pool ++ [conn]) ∧
    (pool.length < maxsize →
      return_connection pool maxsize conn = pool ++ [conn]) := by
  refine ⟨?_, ?_, ?_⟩
  · rintro (he | hh)
    · simp [ssl_release, he]
    · cases herr : conn.errored_during_use <;> simp [ssl_release, herr, hh]
  · intro h1 h2 h3
    simp [ssl_release, h1, h2, h3]
  · intro h3
    simp [return_connection, h3]

/-- Witness for the amended C8 theorem at concrete connections: the SSL
manager drops an errored connection and keeps a healthy one, while
`_return_connection` pools even the errored one. -/
theorem release_paths_behavior_witness :
    ssl_release [] 8 ⟨true, false⟩ = [] ∧
    ssl_release [] 8 ⟨false, true⟩ = [] ++ [⟨false, true⟩] ∧
    return_connection [] 8 ⟨true, false⟩ = [] ++ [⟨true, false⟩] :=
  ⟨(release_paths_behavior [] 8 ⟨true, false⟩).1 (Or.inl rfl),
   (release_paths_behavior [] 8 ⟨false, true⟩).2.1 rfl rfl (by decide),
   (release_paths_behavior [] 8 ⟨true, false⟩).2.2 (by decide)⟩

/-! Decoder totality lemmas. -/

theorem findSub_none_isPrefixOf_false (pat : List Char) (hne : pat ≠ []) :
    ∀ (l : List Char), findSub pat l = none →
      ∀ i, pat.isPrefixOf (l.drop i) = false
  | [], _, i => by
    cases pat with
    | nil => exact absurd rfl hne
    | cons a t => simp [List.isPrefixOf, List.drop_nil]
  | c :: t, h, i => by
    unfold findSub at h
    by_cases hp : pat.isPrefixOf (c :: t) = true
    · rw [if_pos hp] at h
      exact absurd h (by simp)
    · rw [if_neg hp] at h
      have ht : findSub pat t = none := Option.map_eq_none'.mp h
      cases i with
      | zero =>
        simp only [List.drop_zero]
        exact Bool.eq_false_iff.mpr hp
      | succ i2 =>
        simp only [List.drop_succ_cons]
        exact findSub_none_isPrefixOf_false pat hne t ht i2

theorem scan_ybegin_nil (content : List Char)
    (h : ∀ i, ("=ybegin ".toList).isPrefixOf (content.drop i) = false) :
    ∀ (fuel i : Nat), scan_ybegin content fuel i = []
  | 0, _ => rfl
  | fuel + 1, i => by
    simp only [scan_ybegin]
    rw [if_neg (by rw [h i]; simp)]
    by_cases hi : i < content.length
    · rw [if_pos hi]
      exact scan_ybegin_nil content h fuel (i + 1)
    · rw [if_neg hi]

/-- C9: the standalone decoder is total at its boundary — for every input
it returns decoded bytes or `none` (the Python `try/except Exception`
wrapper turns any internal error into `None`, which the embedding
reflects by construction) — and an input in which no `"=ybegin "` header
line occurs produces no regex match, so `decode_yenc` returns `none`
rather than raising. -/
theorem decode_yenc_total_and_none_without_header (content : List Char)
    (h : containsSub "=ybegin " content = false) :
    decode_yenc content = none ∧
    (decode_yenc content = none ∨ ∃ bs, decode_yenc content = some bs) := by
  have hf : findSub "=ybegin ".toList content = none := by
    unfold containsSub at h
    cases hfs : findSub "=ybegin ".toList content with
    | none => rfl
    | some v => rw [hfs] at h; simp at h
  have hpre := findSub_none_isPrefixOf_false "=ybegin ".toList (by decide) content hf
  have hscan := scan_ybegin_nil content hpre (content.length + 1) 0
  constructor
  · have hparts : find_yenc_parts content = [] := by
      simp only [find_yenc_parts]
      rw [hscan]
      rfl
    simp only [decode_yenc]
    rw [hparts]
    rfl
  · cases hd : decode_yenc content with
    | none => exact Or.inl rfl
    | some bs => exact Or.inr ⟨bs, rfl⟩

/-- Witness for C9 on the repository's own no-header test input. -/
theorem decode_yenc_total_witness :
    decode_yenc ("Just some random data".toList) = none ∧
    (decode_yenc ("Just some random data".toList) = none ∨
      ∃ bs, decode_yenc ("Just some random data".toList) = some bs) :=
  decode_yenc_total_and_none_without_header ("Just some random data".toList)
    (by decide)

/-- Sanity check against the repository's unit test
(`test_yenc_decoder.py::test_basic_decoding`): the body `qwrst` decodes to
`GMHIJ` (bytes 71, 77, 72, 73, 74). -/
theorem decode_yenc_basic_vector :
    decode_yenc
        ("=ybegin line=128 size=12345 name=test.bin\r\nqwrst\r\n=yend\r\n".toList) =
      some [71, 77, 72, 73, 74] := by decide
